import Mathlib

set_option maxRecDepth 8000

/-!
Shallow embedding of `listener.py`, a minimal single-threaded UDP echo
server: it binds one UDP socket to a fixed loopback address and port and
then loops forever, blocking on a receive, logging the datagram, sleeping
one second, and echoing the bytes back to the sender, catching any
exception raised by the send.

The transport layer is modelled as an oracle: each loop iteration is fed
the raw incoming datagram, the sender address, and the outcome of the
`sendto` call (`none` for success, `some e` for an exception described by
`e`); a receive that raises is an `Except.error` input.  The observable
behaviour of an iteration is its list of events (receive, log records,
sleep, send attempt, error log), and the loop's result pairs the event
trace with the exception, if any, that propagates out of the loop.
-/

/-- The fixed bind host constant `UDP_IP = "127.0.0.1"` from `listener.py`. -/
def UDP_IP : String := "127.0.0.1"

/-- The fixed bind port constant `UDP_PORT = 3400` from `listener.py`. -/
def UDP_PORT : Nat := 3400

/-- The buffer size passed to every `sock.recvfrom` call in `listener.py`. -/
def BUFSIZE : Nat := 16384

/-- A byte, as carried in a Python `bytes` object: a value in `0 … 255`. -/
abbrev Byte := Fin 256

/-- A sender address `(host, port)` as returned by `recvfrom`. -/
abbrev Addr := String × Nat

/-- Embedding of Python `"{:02X}".format(n)` for a nonnegative integer:
the hexadecimal digits of `n`, rendered uppercase, left-padded with `'0'`
to a minimum width of two characters. -/
def formatHex02 (n : Nat) : String :=
  let ds := (Nat.toDigits 16 n).map Char.toUpper
  String.mk (List.replicate (2 - ds.length) '0' ++ ds)

/-- The accumulating loop of `bytes_dump`: Python's
`for byte in idata: res.append("{:02X}".format(int(byte)))`. -/
def bytesDumpGo : List Byte → List String → List String
  | [], res => res
  | b :: rest, res => bytesDumpGo rest (res ++ [formatHex02 b.val])

/-- `bytes_dump` from `listener.py`: start from `res = []`, run the
append loop over the input bytes, and return `res`. -/
def bytes_dump (idata : List Byte) : List String :=
  bytesDumpGo idata []

/-- Spec-side rendering of a hex digit value `0 … 15` as an uppercase
hexadecimal character (`'0'`–`'9'`, `'A'`–`'F'`). -/
def hexDigitChar (n : Nat) : Char :=
  if n < 10 then Char.ofNat (48 + n) else Char.ofNat (55 + n)

/-- Spec-side token for one byte: the two-character uppercase zero-padded
hexadecimal rendering, high digit first. -/
def specHexToken (b : Byte) : String :=
  String.mk [hexDigitChar (b.val / 16), hexDigitChar (b.val % 16)]

/-- Helper: on byte values the Python `"{:02X}"` format agrees with the
two-character uppercase rendering. -/
lemma formatHex02_token (b : Byte) : formatHex02 b.val = specHexToken b := by
  revert b; decide

/-- Helper: the append loop of `bytes_dump` maps the format over the
input, appended after the accumulator. -/
lemma bytesDumpGo_eq (l : List Byte) (res : List String) :
    bytesDumpGo l res = res ++ l.map (fun b => formatHex02 b.val) := by
  induction l generalizing res with
  | nil => simp [bytesDumpGo]
  | cons b rest ih => simp [bytesDumpGo, ih]

/-- Helper: `bytes_dump` is the map of the spec-side token. -/
lemma bytes_dump_eq_map (l : List Byte) : bytes_dump l = l.map specHexToken := by
  rw [bytes_dump, bytesDumpGo_eq, List.nil_append]
  exact List.map_congr_left fun b _ => formatHex02_token b

/-- An observable event of the server: the startup bind, and per
iteration the receive, the two `print` records (the datagram log record
with the interpolated data, address, length and hex dump, and the
`echoing... to addr` line), the sleep, the send attempt, and the
`echo failed with e` line. -/
inductive Event where
  | bindE (addr : Addr)
  | recvE (data : List Byte) (addr : Addr)
  | logRecvE (data : List Byte) (addr : Addr) (len : Nat) (hexdump : List String)
  | logEchoE (addr : Addr)
  | sleepE (secs : Nat)
  | sendE (data : List Byte) (addr : Addr)
  | logErrE (e : String)
deriving DecidableEq

/-- The transport oracle for one successful receive: the raw datagram
waiting in the OS buffer, the sender address, and the outcome of the
`sendto` call (`none` = success, `some e` = raises an exception whose
description is `e`). -/
structure IterOk where
  incoming : List Byte
  addr : Addr
  sendExn : Option String
deriving DecidableEq

/-- A transport input for one loop iteration: either a successful
receive, or a receive call that raises an exception described by `e`. -/
abbrev IterInput := Except String IterOk

/-- One iteration of the `while True` body of `listener.py` on a
successful receive: `data, addr = sock.recvfrom(16384)` (a UDP read
delivers at most the buffer size, so `data` is the incoming datagram
truncated to `BUFSIZE`), the two `print` calls, `sleep(1)`, and the
guarded `sock.sendto(data, addr)` whose exception, if any, is caught
and logged. -/
def loopIter (i : IterOk) : List Event :=
  let data := i.incoming.take BUFSIZE
  [Event.recvE data i.addr,
   Event.logRecvE data i.addr data.length (bytes_dump data),
   Event.logEchoE i.addr,
   Event.sleepE 1,
   Event.sendE data i.addr] ++
  (match i.sendExn with
   | none => []
   | some e => [Event.logErrE e])

/-- The `while True` loop over a finite prefix of transport inputs:
returns the event trace together with the exception, if any, that
propagates out of the loop.  `recvfrom` is not inside any `try`, so a
receive exception escapes at once, ending the trace; a send exception is
consumed inside `loopIter` and never reaches this level. -/
def runLoop : List IterInput → List Event × Option String
  | [] => ([], none)
  | Except.error e :: _ => ([], some e)
  | Except.ok i :: rest =>
    let r := runLoop rest
    (loopIter i ++ r.1, r.2)

/-- The whole program: `socket.socket(...)` and `sock.bind((UDP_IP,
UDP_PORT))` run before the loop with no guard, so a socket-creation or
bind exception (described by `startExn`) propagates before any
iteration; otherwise the socket is bound to the fixed constants and the
loop runs. -/
def program (startExn : Option String) (inputs : List IterInput) :
    List Event × Option String :=
  match startExn with
  | some e => ([], some e)
  | none =>
    let r := runLoop inputs
    (Event.bindE (UDP_IP, UDP_PORT) :: r.1, r.2)

/-- Recognizer for send-attempt events. -/
def isSendE : Event → Bool
  | Event.sendE _ _ => true
  | _ => false

/-- Recognizer for bind events. -/
def isBindE : Event → Bool
  | Event.bindE _ => true
  | _ => false

/-- The shape of an event, used to state the order of the steps of an
iteration without repeating their payloads. -/
inductive EKind where
  | kBind | kRecv | kLogRecv | kLogEcho | kSleep | kSend | kLogErr
deriving DecidableEq

/-- The shape of an event. -/
def ekind : Event → EKind
  | Event.bindE _ => EKind.kBind
  | Event.recvE _ _ => EKind.kRecv
  | Event.logRecvE _ _ _ _ => EKind.kLogRecv
  | Event.logEchoE _ => EKind.kLogEcho
  | Event.sleepE _ => EKind.kSleep
  | Event.sendE _ _ => EKind.kSend
  | Event.logErrE _ => EKind.kLogErr

/-- The local state of a call to `bytes_dump`: the parameter `idata` and
the accumulator `res`, both live across the `for` loop. -/
structure DumpState where
  idata : List Byte
  res : List String
deriving DecidableEq

/-- The `for byte in idata` loop of `bytes_dump` as a state
transformer: the first argument is the iterator's remaining elements;
each step appends one token to `res` and touches nothing else. -/
def dumpLoop : List Byte → DumpState → DumpState
  | [], st => st
  | b :: rest, st => dumpLoop rest { st with res := st.res ++ [formatHex02 b.val] }

/-- A call `bytes_dump(input)`: initialize `res = []`, run the loop over
all of `input`, and observe the final local state. -/
def dumpRun (input : List Byte) : DumpState :=
  dumpLoop input { idata := input, res := [] }

/-- Claim C2: for every byte sequence, `bytes_dump` returns a list of the
same length whose `i`-th element is the two-character uppercase
zero-padded hexadecimal rendering of the `i`-th input byte, in input
order; in particular byte value 0 renders as "00", 10 as "0A", and
255 as "FF", and every token has exactly two characters. -/
theorem bytes_dump_hex_spec :
    (∀ l : List Byte, bytes_dump l = l.map specHexToken) ∧
    (∀ l : List Byte, (bytes_dump l).length = l.length) ∧
    specHexToken 0 = "00" ∧ specHexToken 10 = "0A" ∧ specHexToken 255 = "FF" ∧
    (∀ b : Byte, (specHexToken b).length = 2) := by
  refine ⟨bytes_dump_eq_map, ?_, by decide, by decide, by decide, by decide⟩
  intro l
  rw [bytes_dump_eq_map, List.length_map]

/-- Claim C1: in an iteration whose send succeeds, any send event of the
iteration carries exactly the bytes and the address of the receive event
of that iteration: the reply is byte-for-byte the received datagram with
no framing added, and its destination is the sender address. -/
theorem echo_identity (i : IterOk) (h : i.sendExn = none)
    (d d' : List Byte) (a a' : Addr)
    (hr : Event.recvE d a ∈ loopIter i) (hs : Event.sendE d' a' ∈ loopIter i) :
    d' = d ∧ a' = a := by
  simp [loopIter, h] at hr hs
  exact ⟨hs.1.trans hr.1.symm, hs.2.trans hr.2.symm⟩

/-- Witness for C1 at a concrete iteration. -/
theorem echo_identity_witness :
    ([(5 : Byte)] : List Byte) = [(5 : Byte)] ∧
    (("127.0.0.1", 40000) : Addr) = ("127.0.0.1", 40000) :=
  echo_identity ⟨[(5 : Byte)], ("127.0.0.1", 40000), none⟩ rfl
    [(5 : Byte)] [(5 : Byte)] ("127.0.0.1", 40000) ("127.0.0.1", 40000)
    (by decide) (by decide)

/-- Claim C3: when the send of an iteration raises, the exception is
caught at the send: the iteration's trace ends with the error log line,
contains exactly one send attempt (no retry), and the loop goes on to
the next receive with its result unaffected — a send failure never
terminates the process. -/
theorem send_failure_contained (i : IterOk) (e : String) (h : i.sendExn = some e)
    (rest : List IterInput) :
    runLoop (Except.ok i :: rest) = (loopIter i ++ (runLoop rest).1, (runLoop rest).2) ∧
    (loopIter i).getLast? = some (Event.logErrE e) ∧
    ((loopIter i).filter isSendE).length = 1 := by
  refine ⟨rfl, ?_, ?_⟩ <;> simp [loopIter, h, isSendE]

/-- Witness for C3 at a concrete failing iteration. -/
theorem send_failure_contained_witness :
    runLoop [Except.ok ⟨[(1 : Byte)], ("127.0.0.1", 7), some "boom"⟩] =
      (loopIter ⟨[(1 : Byte)], ("127.0.0.1", 7), some "boom"⟩ ++ (runLoop []).1,
       (runLoop []).2) ∧
    (loopIter ⟨[(1 : Byte)], ("127.0.0.1", 7), some "boom"⟩).getLast? =
      some (Event.logErrE "boom") ∧
    ((loopIter ⟨[(1 : Byte)], ("127.0.0.1", 7), some "boom"⟩).filter isSendE).length = 1 :=
  send_failure_contained ⟨[(1 : Byte)], ("127.0.0.1", 7), some "boom"⟩ "boom" rfl []

/-- Claim C4: the steps of every iteration occur in the fixed order
receive, datagram log record, echo-destination line, sleep, send
attempt; the delay is the fixed one-second sleep at position 3, and no
send occurs among the events before it. -/
theorem iteration_order (i : IterOk) :
    ((loopIter i).map ekind).take 5 =
      [EKind.kRecv, EKind.kLogRecv, EKind.kLogEcho, EKind.kSleep, EKind.kSend] ∧
    (loopIter i)[3]? = some (Event.sleepE 1) ∧
    ((loopIter i).take 4).all (fun ev => !(isSendE ev)) = true := by
  refine ⟨?_, ?_, ?_⟩ <;> cases hs : i.sendExn <;> simp [loopIter, ekind, isSendE, hs]

/-- Claim C5: a zero-length datagram is processed as a valid receipt:
the iteration logs the record with length 0 and an empty hex dump,
announces the echo, sleeps, sends a zero-length reply, and the loop
continues. -/
theorem zero_length_echo (a : Addr) (rest : List IterInput) :
    loopIter ⟨[], a, none⟩ =
      [Event.recvE [] a, Event.logRecvE [] a 0 [], Event.logEchoE a,
       Event.sleepE 1, Event.sendE [] a] ∧
    runLoop (Except.ok ⟨[], a, none⟩ :: rest) =
      (loopIter ⟨[], a, none⟩ ++ (runLoop rest).1, (runLoop rest).2) :=
  ⟨rfl, rfl⟩

/-- Claim C6: an exception raised by the receive call is not caught
anywhere: it propagates out of the loop at once, ending the trace, even
at the top level of the program after a successful bind. -/
theorem recv_error_uncaught (e : String) (rest : List IterInput) :
    runLoop (Except.error e :: rest) = ([], some e) ∧
    program none (Except.error e :: rest) =
      ([Event.bindE (UDP_IP, UDP_PORT)], some e) :=
  ⟨rfl, rfl⟩

/-- Helper: a loop iteration emits no bind event. -/
lemma loopIter_no_bind (i : IterOk) : (loopIter i).filter isBindE = [] := by
  cases hs : i.sendExn <;> simp [loopIter, isBindE, hs]

/-- Helper: the loop emits no bind event. -/
lemma runLoop_no_bind (inputs : List IterInput) :
    (runLoop inputs).1.filter isBindE = [] := by
  induction inputs with
  | nil => rfl
  | cons x rest ih =>
    cases x with
    | error e => rfl
    | ok i => simp [runLoop, List.filter_append, loopIter_no_bind, ih]

/-- Claim C7: when startup fails, the error propagates with no event at
all — no bind and no loop iteration; when startup succeeds, the very
first event is the single bind of the socket to the fixed address
`127.0.0.1` and port `3400`, and no other bind ever occurs. -/
theorem startup_bind_spec (e : String) (inputs : List IterInput) :
    program (some e) inputs = ([], some e) ∧
    (program none inputs).1.head? = some (Event.bindE ("127.0.0.1", 3400)) ∧
    ((program none inputs).1.filter isBindE).length = 1 := by
  refine ⟨rfl, rfl, ?_⟩
  simp [program, isBindE, runLoop_no_bind]

/-- Helper: the receive event of an iteration carries at most `BUFSIZE`
bytes, since `recvfrom` truncates to the buffer size. -/
lemma recvE_length_loopIter (i : IterOk) (d : List Byte) (a : Addr)
    (h : Event.recvE d a ∈ loopIter i) : d.length ≤ BUFSIZE := by
  have hd : d = i.incoming.take BUFSIZE := by
    cases hs : i.sendExn <;> simp [loopIter, hs] at h <;> exact h.1
  rw [hd, List.length_take]
  exact min_le_left _ _

/-- Helper: every receive event of the loop carries at most `BUFSIZE`
bytes. -/
lemma recv_length_runLoop (inputs : List IterInput) (d : List Byte) (a : Addr)
    (h : Event.recvE d a ∈ (runLoop inputs).1) : d.length ≤ BUFSIZE := by
  induction inputs with
  | nil => simp [runLoop] at h
  | cons x rest ih =>
    cases x with
    | error e' => simp [runLoop] at h
    | ok i =>
      simp only [runLoop, List.mem_append] at h
      rcases h with h | h
      · exact recvE_length_loopIter i d a h
      · exact ih h

/-- Claim C8: the byte count passed to every receive is the fixed
constant 16384, so every datagram bound in an iteration of the loop has
length at most 16384. -/
theorem recv_buffer_bound (inputs : List IterInput) (d : List Byte) (a : Addr)
    (h : Event.recvE d a ∈ (program none inputs).1) :
    d.length ≤ 16384 ∧ BUFSIZE = 16384 := by
  refine ⟨?_, rfl⟩
  simp only [program, List.mem_cons] at h
  rcases h with h | h
  · cases h
  · exact recv_length_runLoop inputs d a h

/-- Witness for C8 at a concrete trace. -/
theorem recv_buffer_bound_witness :
    ([(1 : Byte), 2] : List Byte).length ≤ 16384 ∧ BUFSIZE = 16384 :=
  recv_buffer_bound [Except.ok ⟨[(1 : Byte), 2], ("127.0.0.1", 9), none⟩]
    [(1 : Byte), 2] ("127.0.0.1", 9) (by decide)

/-- Claim C9: the handler around the send matches the base `Exception`
class, so no exception raised by the send, whatever its kind or
description, escapes the loop body: as long as every receive succeeds,
nothing propagates out of the loop. -/
theorem send_exception_caught (inputs : List IterInput)
    (h : ∀ x ∈ inputs, ∃ i, x = Except.ok i) :
    (runLoop inputs).2 = none := by
  induction inputs with
  | nil => rfl
  | cons x rest ih =>
    obtain ⟨i, rfl⟩ := h x (List.mem_cons_self x rest)
    exact ih fun y hy => h y (List.mem_cons_of_mem _ hy)

/-- Witness for C9: a send that raises does not make the loop raise. -/
theorem send_exception_caught_witness :
    (runLoop [Except.ok ⟨[(7 : Byte)], ("127.0.0.1", 5), some "boom"⟩]).2 = none :=
  send_exception_caught [Except.ok ⟨[(7 : Byte)], ("127.0.0.1", 5), some "boom"⟩]
    (by rintro x hx; rw [List.mem_singleton] at hx; exact ⟨_, hx⟩)

/-- Helper: the `for` loop of `bytes_dump` never writes `idata`. -/
lemma dumpLoop_idata (bs : List Byte) (st : DumpState) :
    (dumpLoop bs st).idata = st.idata := by
  induction bs generalizing st with
  | nil => rfl
  | cons b rest ih => simp [dumpLoop, ih]

/-- Helper: the `for` loop of `bytes_dump` computes the append loop on
`res`. -/
lemma dumpLoop_res (bs : List Byte) (st : DumpState) :
    (dumpLoop bs st).res = bytesDumpGo bs st.res := by
  induction bs generalizing st with
  | nil => rfl
  | cons b rest ih => simp [dumpLoop, bytesDumpGo, ih]

/-- Claim C10: `bytes_dump` is deterministic and side-effect-free: a run
leaves its input sequence unchanged, its result is the pure function of
the input, and equal inputs give equal outputs. -/
theorem bytes_dump_pure (l l₁ l₂ : List Byte) (h : l₁ = l₂) :
    (dumpRun l).idata = l ∧ (dumpRun l).res = bytes_dump l ∧
    bytes_dump l₁ = bytes_dump l₂ :=
  ⟨dumpLoop_idata l _, dumpLoop_res l _, h ▸ rfl⟩

/-- Witness for C10 at concrete inputs. -/
theorem bytes_dump_pure_witness :
    (dumpRun [(3 : Byte)]).idata = [(3 : Byte)] ∧
    (dumpRun [(3 : Byte)]).res = bytes_dump [(3 : Byte)] ∧
    bytes_dump [(10 : Byte)] = bytes_dump [(10 : Byte)] :=
  bytes_dump_pure [(3 : Byte)] [(10 : Byte)] [(10 : Byte)] rfl
